import Mathlib

/-!
Shallow embedding of the RAGMeUp reranking core.

Sources embedded here:
- src/server/Reranker_Lis.py and src/server/Reranker.py (the two copies of the
  lexical, BM25-plus-feedback reranker; their combiner, compute_relevance_score,
  retrieve_with_bm25 and rerank_documents_with_feedback bodies are identical up
  to print statements, so one embedding covers both),
- src/server/scored_cross_encoder_reranker.py (the semantic,
  cross-encoder-plus-feedback reranker FeedbackAwareCrossEncoderReranker).

Numbers are modelled as rationals: the Python code computes over int64 ratings
and float scores; the claims under study are about the algebraic shape of the
computation, not float rounding. Ratings read from the feedback table are
integers and are modelled as Int. Pandas DataFrames keyed by a column are
modelled as association lists in row order; a Python dict is modelled as an
association list read through lookup (first match wins, as in a dict where
keys are unique). A Python exception is modelled as the Option value none.
-/

/-- A metadata value of a langchain Document: the code stores strings (for
example the source file name) and numeric scores in the same mapping. -/
inductive MetaVal where
  | str : String → MetaVal
  | num : ℚ → MetaVal
deriving DecidableEq

/-- A langchain Document as used by scored_cross_encoder_reranker.py:
page_content plus a metadata mapping, the mapping modelled as an association
list in insertion order. -/
structure Document where
  page_content : String
  metadata : List (String × MetaVal)
deriving DecidableEq

/-! ### String helpers modelling the Python str methods used by the code.
They are written by structural recursion over the character list so that the
kernel can evaluate them inside decide and rfl proofs. -/

/-- One step of Python str.replace: with fuel bounding the number of steps,
scan left to right; on a match of the (non-empty) pattern, emit the
replacement and continue after the matched characters (non-overlapping
occurrences, exactly as Python str.replace). The fuel is always called with
the length of the input, which bounds the step count, so it never runs out. -/
def replaceFuel (pat rep : List Char) : Nat → List Char → List Char
  | 0, l => l
  | _ + 1, [] => []
  | fuel + 1, c :: cs =>
    if (!pat.isEmpty) && pat.isPrefixOf (c :: cs) then
      rep ++ replaceFuel pat rep fuel ((c :: cs).drop pat.length)
    else
      c :: replaceFuel pat rep fuel cs

/-- Python str.replace(old, new), on strings. -/
def pyReplace (s old new : String) : String :=
  String.mk (replaceFuel old.toList new.toList s.toList.length s.toList)

/-- Auxiliary for Python str.split(sep) with a one-character separator:
accumulates the current piece in reverse. Always returns at least one piece,
exactly as Python split with an explicit separator. -/
def splitCharAux (sep : Char) : List Char → List Char → List (List Char)
  | [], cur => [cur.reverse]
  | c :: cs, cur =>
    if c = sep then cur.reverse :: splitCharAux sep cs []
    else splitCharAux sep cs (c :: cur)

/-- Python str.split(sep) for a one-character separator sep. -/
def splitOnChar (sep : Char) (s : String) : List String :=
  (splitCharAux sep s.toList []).map String.mk

/-- Python str.strip(c) for a one-character strip set: removes every leading
and trailing occurrence of that character. -/
def stripChar (c : Char) (s : String) : String :=
  String.mk (((s.toList.dropWhile (· = c)).reverse.dropWhile (· = c)).reverse)

/-- Auxiliary for Python str.split() with no argument: split on whitespace
runs, dropping empty pieces. -/
def tokenizeWsAux : List Char → List Char → List String
  | [], cur => if cur.isEmpty then [] else [String.mk cur.reverse]
  | c :: cs, cur =>
    if c.isWhitespace then
      if cur.isEmpty then tokenizeWsAux cs []
      else String.mk cur.reverse :: tokenizeWsAux cs []
    else
      tokenizeWsAux cs (c :: cur)

/-- Python str.split() with no argument (whitespace tokenization), used by
retrieve_with_bm25 to tokenize documents and query. -/
def tokenizeWs (s : String) : List String :=
  tokenizeWsAux s.toList []

/-! ### Lexical reranker: Reranker_Lis.py / Reranker.py -/

/-- Reranker.combiner, line 58: the serialized document_id field of one
feedback row is turned into a list of raw identifier pieces by
`.replace('[', '').replace(']', '').replace(' " ', '').split(',')`. -/
def parse_document_ids (s : String) : List String :=
  splitOnChar ',' (pyReplace (pyReplace (pyReplace s "[" "") "]" "") " \" " "")

/-- Reranker.combiner, lines 67 to 77, processing one identifier: build the
one-row frame new_row; if the accumulator feedback_rating_df does not exist
yet (locals() check, modelled by the Option being none) it is set to new_row;
then, if the identifier is already a key of the accumulator, its rating is
incremented by the rating of the current row, else new_row is appended.
Note that on the very first identifier the freshly created accumulator
already contains that identifier, so the increment branch also fires. -/
def addRow (acc : Option (List (String × Int))) (document_id : String)
    (rating : Int) : List (String × Int) :=
  let acc0 := match acc with
    | none => [(document_id, rating)]
    | some a => a
  if (acc0.map Prod.fst).contains document_id then
    acc0.map (fun p => if p.1 = document_id then (p.1, p.2 + rating) else p)
  else
    acc0 ++ [(document_id, rating)]

/-- Reranker.combiner, line 64 then lines 67 to 77: one identifier piece is
stripped of double quotes and folded into the accumulator. -/
def combinerInnerStep (rating : Int) (a : Option (List (String × Int)))
    (i : String) : Option (List (String × Int)) :=
  some (addRow a (stripChar '"' i) rating)

/-- Reranker.combiner, inner loop over the identifiers of one feedback row
(document_id serialized string, rating). -/
def combinerOuterStep (acc : Option (List (String × Int)))
    (row : String × Int) : Option (List (String × Int)) :=
  (parse_document_ids row.1).foldl (combinerInnerStep row.2) acc

/-- Reranker.combiner, lines 57 to 77: the accumulation loop over all
feedback rows. The accumulator starts not-yet-created (none); it is created
when the first identifier of the first row is processed. If the feedback
frame has no rows the accumulator is never created, and the later merge
raises UnboundLocalError in Python: that state stays none here. -/
def feedback_rating_df (feedback : List (String × Int)) :
    Option (List (String × Int)) :=
  feedback.foldl combinerOuterStep none

/-- Reranker.combiner, lines 80 to 90: the aggregated ratings are
left-merged onto the candidate document list on document_id, missing ratings
filled with 0 (fillna(0) followed by astype(int)). With an empty feedback
frame the accumulator was never created and Python raises UnboundLocalError
at the merge: modelled as none. -/
def combiner (feedback : List (String × Int)) (documents_lst : List String) :
    Option (List (String × Int)) :=
  match feedback_rating_df feedback with
  | none => none
  | some frdf =>
      some (documents_lst.map (fun d => (d, (frdf.lookup d).getD 0)))

/-- Observer: the document_id keys of the (possibly not yet created)
aggregation accumulator, in row order. -/
def keysOfOpt (o : Option (List (String × Int))) : List String :=
  (o.getD []).map Prod.fst

/-- Reranker.retrieve_with_bm25, lines 94 to 116: tokenize the documents and
the query with str.split(), build a BM25Okapi index over the tokenized
documents, score the query, and pair every document with its score.
Constructing BM25Okapi runs rank_bm25 BM25._initialize, whose last line
divides the total token count by the corpus size; on an empty document list
the corpus size is 0 and Python raises ZeroDivisionError, modelled as none.
The numeric BM25 scores come from the rank_bm25 collaborator (they involve
logarithms of corpus statistics), abstracted as the bm25_get_scores argument
applied to the tokenized corpus and the tokenized query. -/
def retrieve_with_bm25
    (bm25_get_scores : List (List String) → List String → List ℚ)
    (query : String) (documents : List String) :
    Option (List (String × ℚ)) :=
  let tokenized_docs := documents.map tokenizeWs
  if tokenized_docs.length = 0 then none
  else some (documents.zip (bm25_get_scores tokenized_docs (tokenizeWs query)))

/-- Reranker.compute_relevance_score, line 133:
alpha * bm25_score_weight + beta * feedback_weight. -/
def compute_relevance_score (bm25_score_weight feedback_weight alpha beta : ℚ) :
    ℚ :=
  alpha * bm25_score_weight + beta * feedback_weight

/-- The Python default value of the alpha argument of
compute_relevance_score (0.7), used by rerank_documents_with_feedback, which
calls the function without explicit weights. -/
def relevance_alpha : ℚ := 7 / 10

/-- The Python default value of the beta argument of
compute_relevance_score (0.3). -/
def relevance_beta : ℚ := 3 / 10

/-- Stable insertion of one element into a list sorted descending by the key:
the element goes before the first strictly smaller key, hence after every
earlier element with an equal key. -/
def insertDescBy {α : Type} (key : α → ℚ) (x : α) : List α → List α
  | [] => [x]
  | y :: ys => if key y < key x then x :: y :: ys else y :: insertDescBy key x ys

/-- Stable descending sort by a rational key, ties kept in input order. A
stable sort is determined up to extensional equality by sortedness plus
stability, so this insertion sort is the same function as CPython
sorted(..., reverse=True), which is documented stable with reverse=True
keeping equal elements in original order. -/
def sortDescBy {α : Type} (key : α → ℚ) (l : List α) : List α :=
  l.foldl (fun acc x => insertDescBy key x acc) []

/-- Pandas DataFrame.sort_values(by=..., ascending=False) as used on the
relevance_score column: pandas nargsort reverses the rows, runs an ascending
argsort, and reverses the result, placing NaN keys last (na_position is
last). With a stable underlying argsort this is exactly the stable
descending sort on the non-NaN rows followed by the NaN rows; the default
quicksort kind is stable below the numpy insertion-sort cutoff (see the C4
discussion). A NaN key, which arises when a row had no rating to fuse, is
modelled as a none key. -/
def sort_values_desc {α : Type} (l : List (α × Option ℚ)) :
    List (α × Option ℚ) :=
  sortDescBy (fun p => p.2.getD 0) (l.filter (fun p => p.2.isSome))
    ++ l.filter (fun p => !p.2.isSome)

/-- Reranker.rerank_documents_with_feedback, lines 135 to 164: BM25-score the
documents, left-merge with the combiner output on the document text equal to
document_id (a document missing from combined_df gets a NaN rating, modelled
as none, which then propagates through the fusion as NaN), fuse each row
with compute_relevance_score under the default weights, and sort descending
by relevance_score. The BM25 failure on an empty document list propagates. -/
def rerank_documents_with_feedback
    (bm25_get_scores : List (List String) → List String → List ℚ)
    (query : String) (documents : List String)
    (combined_df : List (String × Int)) :
    Option (List (String × Option ℚ)) :=
  match retrieve_with_bm25 bm25_get_scores query documents with
  | none => none
  | some bm25_df =>
      let merged := bm25_df.map (fun ds => (ds.1, ds.2, combined_df.lookup ds.1))
      let with_scores := merged.map (fun dsr =>
        (dsr.1, dsr.2.2.map (fun r =>
          compute_relevance_score dsr.2.1 (r : ℚ) relevance_alpha relevance_beta)))
      some (sort_values_desc with_scores)

/-! ### Semantic reranker: scored_cross_encoder_reranker.py -/

/-- The source field read by _get_document_feedback_score, line 43:
document.metadata.get('source', ''). A missing key yields the empty string;
the stored value is kept as a metadata value so that a non-string source
compares unequal to every document_name string, as in Python. -/
def doc_source (document : Document) : MetaVal :=
  (document.metadata.lookup "source").getD (MetaVal.str "")

/-- FeedbackAwareCrossEncoderReranker._get_document_feedback_score, lines 28
to 52: with no feedback frame return 0.5; otherwise select the rows whose
document_name equals the document source; if none match return 0.5, else
return the mean of their total_rating. The feedback frame is the list of
(document_name, total_rating) rows. -/
def get_document_feedback_score (feedback_df : Option (List (String × ℚ)))
    (document : Document) : ℚ :=
  match feedback_df with
  | none => 1 / 2
  | some df =>
      let matching := df.filter (fun r => MetaVal.str r.1 = doc_source document)
      if matching.isEmpty then 1 / 2
      else (matching.map Prod.snd).sum / (matching.length : ℚ)

/-- The weighted average of compress_documents, lines 81 to 84:
(1 - feedback_weight) * cross_encoder_score + feedback_weight * feedback_score. -/
def semantic_combined (feedback_weight cross_encoder_score feedback_score : ℚ) :
    ℚ :=
  (1 - feedback_weight) * cross_encoder_score
    + feedback_weight * feedback_score

/-- Python dict update as in the literal of compress_documents lines 94 to
99: an existing key keeps its position and gets the new value, a new key is
appended at the end. -/
def setKey (m : List (String × MetaVal)) (k : String) (v : MetaVal) :
    List (String × MetaVal) :=
  if (m.map Prod.fst).contains k then
    m.map (fun p => if p.1 = k then (k, v) else p)
  else
    m ++ [(k, v)]

/-- The document copy built in compress_documents lines 92 to 100:
doc.copy(update={"metadata": {(asterisk)(asterisk)doc.metadata,
relevance_score, cross_encoder_score, feedback_score}}): a fresh document
whose metadata is the old metadata with the three score keys set in that
order. -/
def update_document_metadata (doc : Document) (score ces fs : ℚ) : Document :=
  { doc with
    metadata :=
      setKey
        (setKey
          (setKey doc.metadata "relevance_score" (MetaVal.num score))
          "cross_encoder_score" (MetaVal.num ces))
        "feedback_score" (MetaVal.num fs) }

/-- FeedbackAwareCrossEncoderReranker.compress_documents, lines 54 to 102:
score every document with the injected cross-encoder model (a collaborator
exposing score(query, content), abstracted as the model argument), fuse each
cross-encoder score with the document feedback score, sort descending by the
combined score (Python sorted with reverse=True, a stable sort), and return
the first top_n documents with updated metadata. The final comprehension
zips result[:top_n] with itself, so the value destructured as
cross_encoder_score is the second component of the same pair, that is the
combined score. -/
def compress_documents (model : String → String → ℚ)
    (feedback_df : Option (List (String × ℚ))) (feedback_weight : ℚ)
    (top_n : Nat) (documents : List Document) (query : String) :
    List Document :=
  let cross_encoder_scores := documents.map (fun doc => model query doc.page_content)
  let docs_with_scores := (documents.zip cross_encoder_scores).map (fun dc =>
    (dc.1, semantic_combined feedback_weight dc.2
      (get_document_feedback_score feedback_df dc.1)))
  let result := sortDescBy Prod.snd docs_with_scores
  ((result.take top_n).zip (result.take top_n)).map (fun pq =>
    update_document_metadata pq.1.1 pq.1.2 pq.2.2
      (get_document_feedback_score feedback_df pq.1.1))

/-! ### Helper lemmas -/

/-- Looking up a key that is not among the keys of an association list
yields none. -/
theorem lookup_eq_none_of_not_mem_keys {β : Type} (m : List (String × β))
    (k : String) (h : k ∉ m.map Prod.fst) : m.lookup k = none := by
  induction m with
  | nil => rfl
  | cons p t ih =>
      simp only [List.map_cons, List.mem_cons, not_or] at h
      obtain ⟨h1, h2⟩ := h
      obtain ⟨pk, pv⟩ := p
      simp only [List.lookup]
      have : (k == pk) = false := beq_false_of_ne h1
      rw [this]
      exact ih h2

/-- Looking up a list member in the association list that tabulates a
function over the list yields the function value. -/
theorem lookup_map_self {β : Type} (docs : List String) (f : String → β)
    (d : String) (h : d ∈ docs) :
    (docs.map (fun x => (x, f x))).lookup d = some (f d) := by
  induction docs with
  | nil => cases h
  | cons x t ih =>
      simp only [List.map_cons, List.lookup]
      by_cases hx : d = x
      · subst hx
        simp
      · have : (d == x) = false := beq_false_of_ne hx
        rw [this]
        exact ih (by
          rcases List.mem_cons.mp h with h' | h'
          · exact absurd h' hx
          · exact h')

/-- The rating update map inside addRow keeps the key of every row. -/
theorem keys_map_update (a : List (String × Int)) (i : String) (r : Int) :
    (a.map (fun p => if p.1 = i then (p.1, p.2 + r) else p)).map Prod.fst
      = a.map Prod.fst := by
  rw [List.map_map]
  apply List.map_congr_left
  intro p _
  by_cases hp : p.1 = i <;> simp [hp]

/-- The keys after addRow are exactly the previous keys together with the
inserted identifier. -/
theorem mem_keys_addRow_iff (acc : Option (List (String × Int))) (i : String)
    (r : Int) (k : String) :
    k ∈ (addRow acc i r).map Prod.fst ↔ k ∈ keysOfOpt acc ∨ k = i := by
  unfold addRow
  cases acc with
  | none =>
      simp only [keysOfOpt, Option.getD_none, List.map_nil]
      split
      · rw [keys_map_update]
        simp
      · simp
  | some a =>
      simp only [keysOfOpt, Option.getD_some]
      split
      · rw [keys_map_update]
        rename_i hcon
        constructor
        · exact Or.inl
        · rintro (h | rfl)
          · exact h
          · simpa using hcon
      · simp [List.mem_append]

/-- Keys after the inner combiner loop over the identifiers of one row:
the previous keys together with the stripped identifiers. -/
theorem keys_innerFold_iff (r : Int) (ids : List String) :
    ∀ (acc : Option (List (String × Int))) (k : String),
      k ∈ keysOfOpt (ids.foldl (combinerInnerStep r) acc) ↔
        k ∈ keysOfOpt acc ∨ ∃ i ∈ ids, stripChar '"' i = k := by
  induction ids with
  | nil => simp
  | cons i t ih =>
      intro acc k
      simp only [List.foldl_cons]
      rw [ih]
      have hstep : keysOfOpt (combinerInnerStep r acc i)
          = (addRow acc (stripChar '"' i) r).map Prod.fst := rfl
      rw [hstep, mem_keys_addRow_iff]
      simp only [List.mem_cons]
      constructor
      · rintro ((h | h) | ⟨j, hj, hk⟩)
        · exact Or.inl h
        · exact Or.inr ⟨i, Or.inl rfl, h.symm⟩
        · exact Or.inr ⟨j, Or.inr hj, hk⟩
      · rintro (h | ⟨j, (rfl | hj), hk⟩)
        · exact Or.inl (Or.inl h)
        · exact Or.inl (Or.inr hk.symm)
        · exact Or.inr ⟨j, hj, hk⟩

/-- Keys after the outer combiner loop over all feedback rows: the previous
keys together with every stripped identifier parsed from any row. -/
theorem keys_outerFold_iff (rows : List (String × Int)) :
    ∀ (acc : Option (List (String × Int))) (k : String),
      k ∈ keysOfOpt (rows.foldl combinerOuterStep acc) ↔
        k ∈ keysOfOpt acc ∨
          ∃ row ∈ rows, ∃ i ∈ parse_document_ids row.1,
            stripChar '"' i = k := by
  induction rows with
  | nil => simp
  | cons row t ih =>
      intro acc k
      simp only [List.foldl_cons]
      rw [ih]
      have hstep : combinerOuterStep acc row
          = (parse_document_ids row.1).foldl (combinerInnerStep row.2) acc := rfl
      rw [hstep, keys_innerFold_iff]
      simp only [List.mem_cons]
      constructor
      · rintro ((h | ⟨i, hi, hk⟩) | ⟨row2, hr2, i, hi, hk⟩)
        · exact Or.inl h
        · exact Or.inr ⟨row, Or.inl rfl, i, hi, hk⟩
        · exact Or.inr ⟨row2, Or.inr hr2, i, hi, hk⟩
      · rintro (h | ⟨row2, (rfl | hr2), i, hi, hk⟩)
        · exact Or.inl (Or.inl h)
        · exact Or.inl (Or.inr ⟨i, hi, hk⟩)
        · exact Or.inr ⟨row2, hr2, i, hi, hk⟩

/-- The keys of the full aggregation accumulator are exactly the stripped
identifiers parsed from the feedback rows: no identifier, not even an empty
one, is dropped. -/
theorem mem_keys_feedback_rating_df_iff (feedback : List (String × Int))
    (k : String) :
    k ∈ keysOfOpt (feedback_rating_df feedback) ↔
      ∃ row ∈ feedback, ∃ i ∈ parse_document_ids row.1,
        stripChar '"' i = k := by
  unfold feedback_rating_df
  rw [keys_outerFold_iff]
  simp [keysOfOpt]

/-- The inner combiner loop yields a created accumulator as soon as the
incoming one is created or at least one identifier is processed. -/
theorem innerFold_isSome (r : Int) (ids : List String) :
    ∀ (acc : Option (List (String × Int))),
      acc.isSome ∨ ids ≠ [] →
      (ids.foldl (combinerInnerStep r) acc).isSome := by
  induction ids with
  | nil =>
      intro acc h
      rcases h with h | h
      · exact h
      · exact absurd rfl h
  | cons i t ih =>
      intro acc _
      simp only [List.foldl_cons]
      exact ih _ (Or.inl rfl)

/-- The outer combiner loop keeps the accumulator created. -/
theorem outerFold_isSome (rows : List (String × Int)) :
    ∀ (acc : Option (List (String × Int))), acc.isSome →
      (rows.foldl combinerOuterStep acc).isSome := by
  induction rows with
  | nil => intro acc h; exact h
  | cons row t ih =>
      intro acc h
      simp only [List.foldl_cons]
      exact ih _ (innerFold_isSome _ _ _ (Or.inl h))

/-- Splitting with an explicit separator always yields at least one piece. -/
theorem splitCharAux_ne_nil (sep : Char) (l : List Char) :
    ∀ cur : List Char, splitCharAux sep l cur ≠ [] := by
  induction l with
  | nil => intro cur; simp [splitCharAux]
  | cons c cs ih =>
      intro cur
      simp only [splitCharAux]
      split
      · simp
      · exact ih _

/-- The parsed identifier list of a feedback row is never empty. -/
theorem parse_document_ids_ne_nil (s : String) : parse_document_ids s ≠ [] := by
  unfold parse_document_ids splitOnChar
  intro h
  exact splitCharAux_ne_nil _ _ _ (List.map_eq_nil_iff.mp h)

/-- On a non-empty feedback frame the aggregation accumulator is created. -/
theorem feedback_rating_df_isSome (feedback : List (String × Int))
    (h : feedback ≠ []) : (feedback_rating_df feedback).isSome := by
  cases feedback with
  | nil => exact absurd rfl h
  | cons row t =>
      unfold feedback_rating_df
      simp only [List.foldl_cons]
      apply outerFold_isSome
      unfold combinerOuterStep
      exact innerFold_isSome _ _ _ (Or.inr (parse_document_ids_ne_nil _))

/-- Stable insertion grows the length by one. -/
theorem length_insertDescBy {α : Type} (key : α → ℚ) (x : α) (l : List α) :
    (insertDescBy key x l).length = l.length + 1 := by
  induction l with
  | nil => rfl
  | cons y ys ih =>
      simp only [insertDescBy]
      split
      · simp
      · simp [ih]

/-- The insertion-sort fold preserves total length. -/
theorem length_foldl_insertDescBy {α : Type} (key : α → ℚ) (l : List α) :
    ∀ acc : List α,
      (l.foldl (fun acc x => insertDescBy key x acc) acc).length
        = acc.length + l.length := by
  induction l with
  | nil => intro acc; simp
  | cons x t ih =>
      intro acc
      simp only [List.foldl_cons]
      rw [ih, length_insertDescBy]
      simp only [List.length_cons]
      omega

/-- The stable descending sort preserves length. -/
theorem length_sortDescBy {α : Type} (key : α → ℚ) (l : List α) :
    (sortDescBy key l).length = l.length := by
  unfold sortDescBy
  rw [length_foldl_insertDescBy]
  simp

/-- Members of a stable insertion are the inserted element or old members. -/
theorem mem_insertDescBy {α : Type} (key : α → ℚ) (x y : α) (l : List α)
    (h : y ∈ insertDescBy key x l) : y = x ∨ y ∈ l := by
  induction l with
  | nil => simpa [insertDescBy] using h
  | cons z zs ih =>
      simp only [insertDescBy] at h
      split at h
      · simpa using h
      · rcases List.mem_cons.mp h with h1 | h1
        · exact Or.inr (List.mem_cons.mpr (Or.inl h1))
        · rcases ih h1 with h2 | h2
          · exact Or.inl h2
          · exact Or.inr (List.mem_cons.mpr (Or.inr h2))

/-- Members of the insertion-sort fold come from the accumulator or the
input list. -/
theorem mem_foldl_insertDescBy {α : Type} (key : α → ℚ) (l : List α) :
    ∀ (acc : List α) (y : α),
      y ∈ l.foldl (fun acc x => insertDescBy key x acc) acc →
      y ∈ acc ∨ y ∈ l := by
  induction l with
  | nil => intro acc y h; exact Or.inl h
  | cons x t ih =>
      intro acc y h
      simp only [List.foldl_cons] at h
      rcases ih _ _ h with h1 | h1
      · rcases mem_insertDescBy _ _ _ _ h1 with h2 | h2
        · exact Or.inr (List.mem_cons.mpr (Or.inl h2))
        · exact Or.inl h2
      · exact Or.inr (List.mem_cons.mpr (Or.inr h1))

/-- Members of the stable descending sort come from the input list. -/
theorem mem_sortDescBy {α : Type} (key : α → ℚ) (l : List α) (y : α)
    (h : y ∈ sortDescBy key l) : y ∈ l := by
  rcases mem_foldl_insertDescBy key l [] y h with h1 | h1
  · cases h1
  · exact h1

/-- Lookup distributes over append: the right part is consulted only when
the key is absent from the left part. -/
theorem lookup_append {β : Type} (m l2 : List (String × β)) (k : String) :
    (m ++ l2).lookup k =
      match m.lookup k with
      | some v => some v
      | none => l2.lookup k := by
  induction m with
  | nil => simp [List.lookup]
  | cons p t ih =>
      obtain ⟨pk, pv⟩ := p
      simp only [List.cons_append, List.lookup]
      cases h : (k == pk) with
      | true => rfl
      | false => exact ih

/-- Updating the value at a key in every row that carries it leaves the
lookup of that key at the new value whenever the key occurs. -/
theorem lookup_map_update_of_mem (m : List (String × MetaVal)) (k : String)
    (v : MetaVal) (h : k ∈ m.map Prod.fst) :
    (m.map (fun p => if p.1 = k then (k, v) else p)).lookup k = some v := by
  induction m with
  | nil => cases h
  | cons p t ih =>
      obtain ⟨pk, pv⟩ := p
      simp only [List.map_cons] at h ⊢
      by_cases hk : pk = k
      · subst hk
        rw [if_pos rfl]
        simp [List.lookup]
      · rw [if_neg hk]
        simp only [List.lookup]
        rw [beq_false_of_ne (fun hh : k = pk => hk hh.symm)]
        apply ih
        rcases List.mem_cons.mp h with h1 | h1
        · exact absurd h1.symm hk
        · exact h1

/-- Updating the value at one key does not change lookups of other keys. -/
theorem lookup_map_update_ne (m : List (String × MetaVal)) (k k1 : String)
    (v : MetaVal) (h : k1 ≠ k) :
    (m.map (fun p => if p.1 = k then (k, v) else p)).lookup k1 = m.lookup k1 := by
  induction m with
  | nil => rfl
  | cons p t ih =>
      obtain ⟨pk, pv⟩ := p
      simp only [List.map_cons]
      by_cases hk : pk = k
      · subst hk
        rw [if_pos rfl]
        simp only [List.lookup]
        rw [beq_false_of_ne h]
        exact ih
      · rw [if_neg hk]
        simp only [List.lookup]
        cases hq : (k1 == pk) with
        | true => rfl
        | false => exact ih

/-- Python dict update: looking up the key just set yields the new value. -/
theorem lookup_setKey_self (m : List (String × MetaVal)) (k : String)
    (v : MetaVal) : (setKey m k v).lookup k = some v := by
  unfold setKey
  split
  · rename_i hcon
    exact lookup_map_update_of_mem m k v (by simpa using hcon)
  · rename_i hcon
    rw [lookup_append]
    have : m.lookup k = none := by
      apply lookup_eq_none_of_not_mem_keys
      simpa using hcon
    rw [this]
    simp [List.lookup]

/-- Python dict update: looking up any other key is unchanged. -/
theorem lookup_setKey_ne (m : List (String × MetaVal)) (k k1 : String)
    (v : MetaVal) (h : k1 ≠ k) : (setKey m k v).lookup k1 = m.lookup k1 := by
  unfold setKey
  split
  · exact lookup_map_update_ne m k k1 v h
  · rw [lookup_append]
    cases hm : m.lookup k1 with
    | some w => rfl
    | none =>
        simp only [List.lookup]
        rw [beq_false_of_ne h]

/-! ### Claim theorems -/

/-- C1: the spec scenario. Feedback records with document_ids a,b rating 2
and document_ids b rating 1 should aggregate to a mapped to 2 and b mapped
to 3 (each cumulative rating the sum of the ratings of the records
referencing the id). The code instead yields a mapped to 4: the very first
identifier processed is inserted by the creation branch and then immediately
also incremented by the update branch, so its rating is counted twice. -/
theorem combiner_scenario_double_counts_first_id :
    combiner [("[\"a\",\"b\"]", 2), ("[\"b\"]", 1)] ["a", "b"] =
      some [("a", 4), ("b", 3)] := by decide

/-- C2: aggregation is order dependent. The records (document_ids a, rating
1) and (document_ids b, rating 2) aggregate to a mapped to 2 and b mapped to
2 in one order, but to a mapped to 1 and b mapped to 4 in the swapped order:
whichever record comes first has its first identifier double-counted. The
claim says every permutation yields an identical mapping. -/
theorem combiner_order_dependent :
    combiner [("[\"a\"]", 1), ("[\"b\"]", 2)] ["a", "b"]
        = some [("a", 2), ("b", 2)] ∧
      combiner [("[\"b\"]", 2), ("[\"a\"]", 1)] ["a", "b"]
        = some [("a", 1), ("b", 4)] ∧
      combiner [("[\"a\"]", 1), ("[\"b\"]", 2)] ["a", "b"]
        ≠ combiner [("[\"b\"]", 2), ("[\"a\"]", 1)] ["a", "b"] := by decide

/-- C3: with a model scoring 1 for the only document, no feedback table
(feedback score 0.5) and feedback weight 0.5, the combined score is 0.75.
The returned metadata stores 0.75 under cross_encoder_score as well, because
the final comprehension zips the result list with itself, while the claim
says that field carries the model score, which is 1 here, not 0.75. -/
theorem compress_cross_encoder_metadata_is_combined_score :
    compress_documents (fun _ _ => 1) none (1 / 2) 1
        [⟨"x", []⟩] "q" =
      [⟨"x", [("relevance_score", MetaVal.num (3 / 4)),
              ("cross_encoder_score", MetaVal.num (3 / 4)),
              ("feedback_score", MetaVal.num (1 / 2))]⟩] ∧
    (3 / 4 : ℚ) ≠ 1 := by
  constructor
  · simp [compress_documents, sortDescBy, insertDescBy, semantic_combined,
      get_document_feedback_score, update_document_metadata, setKey]
    norm_num
  · norm_num

/-- C5 counterexample: with an empty feedback record set the lexical
combiner never creates its accumulator and the merge raises
UnboundLocalError (modelled as none), so no candidate receives the default
feedback score 0 there, against the claim, which includes the empty
feedback set. -/
theorem combiner_errors_on_empty_feedback : combiner [] ["x"] = none := rfl

/-- C5 (amended): in the lexical path, for every non-empty feedback record
set, a candidate document referenced by no feedback record receives the
cumulative rating 0 in the combiner output (the left merge fills the missing
rating with 0); in the semantic path, a missing feedback table yields the
feedback score 0.5, a table with no row matching the document source yields
0.5, and matching rows yield the mean of their total_rating. -/
theorem feedback_defaults
    (feedback : List (String × Int)) (docs : List String) (d : String)
    (hne : feedback ≠ []) (hd : d ∈ docs)
    (habs : ∀ row ∈ feedback, ∀ i ∈ parse_document_ids row.1,
      stripChar '"' i ≠ d)
    (document : Document) (df : List (String × ℚ)) :
    (∃ m, combiner feedback docs = some m ∧ m.lookup d = some 0) ∧
    get_document_feedback_score none document = 1 / 2 ∧
    ((df.filter (fun r => MetaVal.str r.1 = doc_source document)).isEmpty
        = true →
      get_document_feedback_score (some df) document = 1 / 2) ∧
    ((df.filter (fun r => MetaVal.str r.1 = doc_source document)).isEmpty
        = false →
      get_document_feedback_score (some df) document =
        ((df.filter (fun r => MetaVal.str r.1 = doc_source document)).map
            Prod.snd).sum /
          (((df.filter (fun r => MetaVal.str r.1 = doc_source document)).length
            : ℚ))) := by
  obtain ⟨frdf, hfr⟩ :=
    Option.isSome_iff_exists.mp (feedback_rating_df_isSome feedback hne)
  have hkd : d ∉ frdf.map Prod.fst := by
    intro hmem
    have hmem2 : d ∈ keysOfOpt (feedback_rating_df feedback) := by
      rw [hfr]
      exact hmem
    rcases (mem_keys_feedback_rating_df_iff feedback d).mp hmem2 with
      ⟨row, hrow, i, hi, hk⟩
    exact habs row hrow i hi hk
  have hlk : frdf.lookup d = none := lookup_eq_none_of_not_mem_keys frdf d hkd
  refine ⟨⟨docs.map (fun x => (x, (frdf.lookup x).getD 0)), ?_, ?_⟩, rfl, ?_, ?_⟩
  · unfold combiner
    rw [hfr]
  · rw [lookup_map_self docs _ d hd, hlk]
    rfl
  · intro h
    simp [get_document_feedback_score, h]
  · intro h
    simp [get_document_feedback_score, h]

/-- C5 witness: feedback referencing only document z, candidate x absent
from feedback, a document with empty metadata and an empty semantic
feedback table. -/
theorem feedback_defaults_witness :
    (∃ m, combiner [("[\"z\"]", 1)] ["x"] = some m ∧ m.lookup "x" = some 0) ∧
    get_document_feedback_score none ⟨"x", []⟩ = 1 / 2 ∧
    ((([] : List (String × ℚ)).filter
        (fun r => MetaVal.str r.1 = doc_source ⟨"x", []⟩)).isEmpty = true →
      get_document_feedback_score (some []) ⟨"x", []⟩ = 1 / 2) ∧
    ((([] : List (String × ℚ)).filter
        (fun r => MetaVal.str r.1 = doc_source ⟨"x", []⟩)).isEmpty = false →
      get_document_feedback_score (some []) ⟨"x", []⟩ =
        ((([] : List (String × ℚ)).filter
            (fun r => MetaVal.str r.1 = doc_source ⟨"x", []⟩)).map
            Prod.snd).sum /
          (((([] : List (String × ℚ)).filter
            (fun r => MetaVal.str r.1 = doc_source ⟨"x", []⟩)).length : ℚ))) :=
  feedback_defaults [("[\"z\"]", 1)] ["x"] "x" (by decide) (by decide)
    (by decide) ⟨"x", []⟩ []

/-- C6 counterexample: the lexical rerank of an empty candidate list errors
(rank_bm25 divides by zero initializing over an empty corpus, modelled as
none) instead of returning an empty result, against the claim, which asks
both paths to return an empty result without error. -/
theorem lexical_rerank_errors_on_empty_candidates :
    rerank_documents_with_feedback (fun _ _ => []) "What is Word2Vec?" [] []
      = none := rfl

/-- C6 (amended): on an empty candidates sequence the semantic
compress_documents returns an empty result without error for every model,
feedback table, weight, top_n and query, while the lexical
rerank_documents_with_feedback raises (BM25 initialization divides by zero
on an empty corpus) for every scorer, query and merged feedback frame. -/
theorem empty_candidates_behavior :
    (∀ (model : String → String → ℚ) (fdb : Option (List (String × ℚ)))
        (w : ℚ) (top_n : Nat) (q : String),
      compress_documents model fdb w top_n [] q = []) ∧
    (∀ (scores : List (List String) → List String → List ℚ) (q : String)
        (cdf : List (String × Int)),
      rerank_documents_with_feedback scores q [] cdf = none) :=
  ⟨fun _ _ _ _ _ => by simp [compress_documents, sortDescBy],
    fun _ _ _ => rfl⟩

/-- C7 counterexample: the record whose serialized document_ids field is the
two-character string holding open and close bracket parses to the single
identifier that is empty after trimming; it is not dropped: it enters the
cumulative-rating mapping as the empty-string key (with its rating double
counted as the first identifier), against the claim that it never enters
the mapping. -/
theorem empty_id_enters_mapping :
    feedback_rating_df [("[]", 5)] = some [("", 10)] := by decide

/-- C7 (amended): no identifier is dropped during lexical aggregation:
every identifier parsed from any feedback record, including those that are
empty after trimming, enters the cumulative-rating mapping as a key after
quote stripping. -/
theorem parsed_ids_always_enter_mapping
    (feedback : List (String × Int)) (row : String × Int) (i : String)
    (hrow : row ∈ feedback) (hi : i ∈ parse_document_ids row.1) :
    stripChar '"' i ∈ keysOfOpt (feedback_rating_df feedback) :=
  (mem_keys_feedback_rating_df_iff feedback _).mpr ⟨row, hrow, i, hi, rfl⟩

/-- C7 witness: the empty identifier parsed from the bracket-only record
enters the mapping. -/
theorem parsed_ids_always_enter_mapping_witness :
    stripChar '"' "" ∈ keysOfOpt (feedback_rating_df [("[]", 5)]) :=
  parsed_ids_always_enter_mapping [("[]", 5)] ("[]", 5) "" (by decide)
    (by decide)

/-- C8: lexical fusion is alpha times relevance plus beta times feedback,
with Python default weights 0.7 and 0.3 (used by
rerank_documents_with_feedback, which calls the function without explicit
weights), and semantic fusion is (1 - feedback_weight) times the
cross-encoder score plus feedback_weight times the feedback score. -/
theorem fusion_formulas :
    (∀ r f a b : ℚ, compute_relevance_score r f a b = a * r + b * f) ∧
    relevance_alpha = 7 / 10 ∧ relevance_beta = 3 / 10 ∧
    (∀ w c fs : ℚ, semantic_combined w c fs = (1 - w) * c + w * fs) :=
  ⟨fun _ _ _ _ => rfl, rfl, rfl, fun _ _ _ => rfl⟩

/-- C9: the semantic reranker returns exactly the minimum of top_n and the
candidate count, for every model, feedback table, weight, document list and
query: never more than supplied, never fewer than that minimum, and a
top_n exceeding the candidate count returns all candidates without error. -/
theorem compress_returns_min_top_n (model : String → String → ℚ)
    (fdb : Option (List (String × ℚ))) (w : ℚ) (top_n : Nat)
    (docs : List Document) (q : String) :
    (compress_documents model fdb w top_n docs q).length
      = min top_n docs.length := by
  simp [compress_documents, length_sortDescBy, Nat.min_self]

/-- C10: compress_documents builds its results as copies: every returned
document stems from an input document, keeps its page_content, keeps every
metadata key other than the three score keys at its old value, and carries
the three score keys; the input documents themselves are values and are
never mutated in this pure model. -/
theorem compress_preserves_documents (model : String → String → ℚ)
    (fdb : Option (List (String × ℚ))) (w : ℚ) (top_n : Nat)
    (docs : List Document) (q : String) (od : Document)
    (hod : od ∈ compress_documents model fdb w top_n docs q) :
    ∃ d ∈ docs,
      od.page_content = d.page_content ∧
      (∀ k : String, k ≠ "relevance_score" → k ≠ "cross_encoder_score" →
        k ≠ "feedback_score" →
        od.metadata.lookup k = d.metadata.lookup k) ∧
      (od.metadata.lookup "relevance_score").isSome = true ∧
      (od.metadata.lookup "cross_encoder_score").isSome = true ∧
      (od.metadata.lookup "feedback_score").isSome = true := by
  simp only [compress_documents] at hod
  rcases List.mem_map.mp hod with ⟨pq, hpq, hup⟩
  obtain ⟨p1, p2⟩ := pq
  have h1 := (List.of_mem_zip hpq).1
  have h2 := List.take_subset _ _ h1
  have h3 := mem_sortDescBy _ _ _ h2
  rcases List.mem_map.mp h3 with ⟨dc, hdc, hgd⟩
  have hd1 : p1.1 ∈ docs := by
    rw [← hgd]
    exact (List.of_mem_zip hdc).1
  subst hup
  refine ⟨p1.1, hd1, rfl, ?_, ?_, ?_, ?_⟩
  · intro k hk1 hk2 hk3
    simp only [update_document_metadata]
    rw [lookup_setKey_ne _ _ _ _ hk3, lookup_setKey_ne _ _ _ _ hk2,
      lookup_setKey_ne _ _ _ _ hk1]
  · simp only [update_document_metadata]
    rw [lookup_setKey_ne _ _ _ _ (by decide), lookup_setKey_ne _ _ _ _ (by decide),
      lookup_setKey_self]
    rfl
  · simp only [update_document_metadata]
    rw [lookup_setKey_ne _ _ _ _ (by decide), lookup_setKey_self]
    rfl
  · simp only [update_document_metadata]
    rw [lookup_setKey_self]
    rfl

/-- C10 witness: one input document with page_content y and one metadata
key k; the single output document keeps both and gains the three scores. -/
theorem compress_preserves_documents_witness :
    ∃ d ∈ [(⟨"y", [("k", MetaVal.str "v")]⟩ : Document)],
      (⟨"y", [("k", MetaVal.str "v"),
              ("relevance_score", MetaVal.num (3 / 4)),
              ("cross_encoder_score", MetaVal.num (3 / 4)),
              ("feedback_score", MetaVal.num (1 / 2))]⟩ :
          Document).page_content = d.page_content ∧
      (∀ k : String, k ≠ "relevance_score" → k ≠ "cross_encoder_score" →
        k ≠ "feedback_score" →
        (⟨"y", [("k", MetaVal.str "v"),
                ("relevance_score", MetaVal.num (3 / 4)),
                ("cross_encoder_score", MetaVal.num (3 / 4)),
                ("feedback_score", MetaVal.num (1 / 2))]⟩ :
            Document).metadata.lookup k = d.metadata.lookup k) ∧
      ((⟨"y", [("k", MetaVal.str "v"),
               ("relevance_score", MetaVal.num (3 / 4)),
               ("cross_encoder_score", MetaVal.num (3 / 4)),
               ("feedback_score", MetaVal.num (1 / 2))]⟩ :
          Document).metadata.lookup "relevance_score").isSome = true ∧
      ((⟨"y", [("k", MetaVal.str "v"),
               ("relevance_score", MetaVal.num (3 / 4)),
               ("cross_encoder_score", MetaVal.num (3 / 4)),
               ("feedback_score", MetaVal.num (1 / 2))]⟩ :
          Document).metadata.lookup "cross_encoder_score").isSome = true ∧
      ((⟨"y", [("k", MetaVal.str "v"),
               ("relevance_score", MetaVal.num (3 / 4)),
               ("cross_encoder_score", MetaVal.num (3 / 4)),
               ("feedback_score", MetaVal.num (1 / 2))]⟩ :
          Document).metadata.lookup "feedback_score").isSome = true :=
  compress_preserves_documents (fun _ _ => 1) none (1 / 2) 1
    [⟨"y", [("k", MetaVal.str "v")]⟩] "q"
    ⟨"y", [("k", MetaVal.str "v"),
           ("relevance_score", MetaVal.num (3 / 4)),
           ("cross_encoder_score", MetaVal.num (3 / 4)),
           ("feedback_score", MetaVal.num (1 / 2))]⟩
    (by
      simp [compress_documents, sortDescBy, insertDescBy, semantic_combined,
        get_document_feedback_score, update_document_metadata, setKey,
        doc_source]
      norm_num)
